import Mathlib

/-!
Verification development for a minimal Kafka wire-protocol server
(request framing, the ApiVersions and DescribeTopicPartitions handlers,
and the per-connection read/handle loop).

Bytes are modelled as `Nat` values (a byte read from a socket satisfies
`b < 256`; where a property needs this it is an explicit hypothesis).
Go `int16`/`int32` values are modelled as `Int` with explicit wrap-around
where the source can overflow.  Fallible Go code is modelled with
`GoResult`: `.ok` for a normal return, `.err` for a returned `error`,
and `.crash` for a runtime panic.
-/

namespace Kaf

/-! ### Protocol constants (internal/kafka/protocol/constants.go) -/

def ApiVersionsKey : Int := 18
def DescribeTopicPartitionsKey : Int := 75
def ErrorNone : Nat := 0
def ErrorUnsupportedVersion : Nat := 35
def ErrorUnknownTopic : Nat := 3
def MinSupportedVersion : Int := 0
def MaxSupportedVersion : Int := 4
def ApiVersionsMinVersion : Int := 0
def ApiVersionsMaxVersion : Int := 4
def DescribeTopicMinVersion : Int := 0
def DescribeTopicMaxVersion : Int := 0

/-! ### Data model -/

/-- `protocol.Request`: the decoded request frame (Length, ApiKey,
ApiVersion, CorrelationID are Go int32/int16 fields; Payload is the
remaining bytes of the frame). -/
structure Request where
  Length : Int
  ApiKey : Int
  ApiVersion : Int
  CorrelationID : Int
  Payload : List Nat
deriving DecidableEq

/-- Outcome of running a piece of Go code: normal value, returned
`error`, or runtime panic. -/
inductive GoResult (α : Type) where
  | ok (val : α)
  | err (msg : String)
  | crash (msg : String)
deriving DecidableEq

def GoResult.map {α β : Type} (f : α → β) : GoResult α → GoResult β
  | .ok a => .ok (f a)
  | .err m => .err m
  | .crash m => .crash m

/-! ### Machine-integer helpers -/

/-- Go `uint16(x)` for an integer `x`. -/
def u16 (x : Int) : Nat := (x % 65536).toNat

/-- Go `uint32(x)` for an integer `x`. -/
def u32 (x : Int) : Nat := (x % 4294967296).toNat

/-- Wrap an integer into `int32` range (two's complement), as Go
`int32` arithmetic does on overflow. -/
def wrap32 (x : Int) : Int := (x + 2147483648) % 4294967296 - 2147483648

/-- Reinterpret a big-endian unsigned value as a signed `int32`
(`binary.Read` into an `int32` field). -/
def toInt32 (n : Nat) : Int :=
  if n < 2147483648 then (n : Int) else (n : Int) - 4294967296

/-- Reinterpret a big-endian unsigned value as a signed `int16`. -/
def toInt16 (n : Nat) : Int :=
  if n < 32768 then (n : Int) else (n : Int) - 65536

/-- Big-endian bytes of a 16-bit value (`binary.BigEndian.PutUint16`). -/
def be16 (v : Nat) : List Nat := [v / 256 % 256, v % 256]

/-- Big-endian bytes of a 32-bit value (`binary.BigEndian.PutUint32`). -/
def be32 (v : Nat) : List Nat :=
  [v / 16777216 % 256, v / 65536 % 256, v / 256 % 256, v % 256]

/-- Big-endian value of a byte list (`binary.BigEndian.Uint32`/`Uint16`
when the list has the right length). -/
def beNat : List Nat → Nat
  | [] => 0
  | b :: t => b * 256 ^ t.length + beNat t

/-! ### Buffer primitives

`putAt buf i vs` overwrites `buf[i : i+len vs]` with `vs`; it models a
`PutUint`/`copy`/element write into a slice whose bounds are statically
in range.  `putAt?` additionally performs the Go slice bounds check and
returns `none` where Go would panic.  `ensure` models the handler's
"expand response buffer if needed" blocks: one single doubling. -/

def putAt (buf : List Nat) (i : Nat) (vs : List Nat) : List Nat :=
  buf.take i ++ vs ++ buf.drop (i + vs.length)

def putAt? (buf : List Nat) (i : Nat) (vs : List Nat) : Option (List Nat) :=
  if i + vs.length ≤ buf.length then some (putAt buf i vs) else none

def ensure (buf : List Nat) (needed : Nat) : List Nat :=
  if buf.length < needed then buf ++ List.replicate buf.length 0 else buf

/-- Bounds-check-and-maybe-expand followed by a write, the pattern used
for every field written into the DescribeTopicPartitions response. -/
def wr (buf : List Nat) (i : Nat) (vs : List Nat) : Option (List Nat) :=
  putAt? (ensure buf (i + vs.length)) i vs

/-- The topic-name field: a single expansion check for the length byte
plus the name bytes, then the two writes (length byte, `copy` of the
name). -/
def wrName (buf : List Nat) (i : Nat) (name : List Nat) : Option (List Nat) :=
  (putAt? (ensure buf (i + 1 + name.length)) i [(name.length + 1) % 256]).bind
    fun b2 => putAt? b2 (i + 1) name

/-- Go `l[i]` for an `int` index: the value, or `none` where Go panics
(index out of range). -/
def goIndex (l : List Nat) (i : Int) : Option Nat :=
  if 0 ≤ i then l.get? i.toNat else none

/-- Go `l[a:b]` for `int` bounds: the sub-list, or `none` where Go
panics (slice bounds out of range). -/
def goSliceL (l : List Nat) (a b : Int) : Option (List Nat) :=
  if 0 ≤ a ∧ a ≤ b ∧ b ≤ (l.length : Int) then
    some ((l.drop a.toNat).take (b - a).toNat)
  else none

/-! ### Response builders (internal/kafka/handlers.go) -/

/-- `handleApiVersionsRequest`: the 26-byte ApiVersions v0-v4 response
body, built exactly as the source writes it into `make([]byte, 26)`. -/
def handleApiVersionsRequest (req : Request) : List Nat :=
  let response := List.replicate 26 0
  let response := putAt response 0 (be32 (u32 req.CorrelationID))
  let response := putAt response 4 (be16 ErrorNone)
  let response := putAt response 6 [3]
  let response := putAt response 7 (be16 (u16 ApiVersionsKey))
  let response := putAt response 9 (be16 (u16 ApiVersionsMinVersion))
  let response := putAt response 11 (be16 (u16 ApiVersionsMaxVersion))
  let response := putAt response 13 [0]
  let response := putAt response 14 (be16 (u16 DescribeTopicPartitionsKey))
  let response := putAt response 16 (be16 (u16 DescribeTopicMinVersion))
  let response := putAt response 18 (be16 (u16 DescribeTopicMaxVersion))
  let response := putAt response 20 [0]
  let response := putAt response 21 (be32 0)
  putAt response 25 [0]

/-- `sendErrorResponse` body: correlation id followed by the error
code, 6 bytes. -/
def sendErrorResponseData (correlationID : Int) (errorCode : Nat) : List Nat :=
  putAt (putAt (List.replicate 6 0) 0 (be32 (u32 correlationID))) 4 (be16 errorCode)

/-- `handleGenericRequest` body (via `sendResponse` with nil payload):
correlation id followed by error code 0. -/
def handleGenericRequestData (req : Request) : List Nat :=
  putAt (putAt (List.replicate 6 0) 0 (be32 (u32 req.CorrelationID))) 4 (be16 ErrorNone)

/-- `sendRawResponse`: the bytes actually written to the connection,
a 4-byte big-endian `int32(len(data))` prefix followed by the data. -/
def sendRawResponse (data : List Nat) : List Nat :=
  be32 (u32 (data.length : Int)) ++ data

/-- One topic entry of the DescribeTopicPartitions response, as the
handler's loop body lays it out: error code 3, compact topic name,
all-zero 16-byte topic id, is-internal 0, empty partitions array (1),
authorized-operations bitmask 0x00000df8, empty tag buffer. -/
def topicEntry (name : List Nat) : List Nat :=
  be16 ErrorUnknownTopic ++ [(name.length + 1) % 256] ++ name ++
    List.replicate 16 0 ++ [0] ++ [1] ++ be32 0x00000df8 ++ [0]

/-- The per-topic writes of `handleDescribeTopicPartitionsRequest`
(from "Topic error code" to the topic tag buffer), at response offset
`i`, returning the buffer and new offset, or `none` where Go panics. -/
def writeTopic (buf : List Nat) (i : Nat) (name : List Nat) :
    Option (List Nat × Nat) :=
  (wr buf i (be16 ErrorUnknownTopic)).bind fun b1 =>
  (wrName b1 (i + 2) name).bind fun b2 =>
  -- topic id: expansion check and offset bump only, the 16 bytes are
  -- left as the zeroes the buffer was created with
  (wr (ensure b2 (i + 3 + name.length + 16)) (i + 19 + name.length) [0]).bind fun b4 =>
  (wr b4 (i + 20 + name.length) [1]).bind fun b5 =>
  (wr b5 (i + 21 + name.length) (be32 0x00000df8)).bind fun b6 =>
  (wr b6 (i + 25 + name.length) [0]).bind fun b7 =>
  some (b7, i + 26 + name.length)

/-- The topic loop of `handleDescribeTopicPartitionsRequest`: parse one
compact topic name from `payload` at `off` and append its response
entry, `n` times. -/
def dtpLoop (payload : List Nat) :
    Nat → Int → List Nat → Nat → GoResult (List Nat × Nat)
  | 0, _off, buf, i => .ok (buf, i)
  | n + 1, off, buf, i =>
    if (payload.length : Int) ≤ off then
      .err "unexpected end of payload when reading topic name length"
    else
      match goIndex payload off with
      | none => .crash "index out of range"
      | some b =>
        let topicNameLength : Int := (b : Int) - 1
        if (payload.length : Int) < off + 1 + topicNameLength then
          .err "invalid topic name length or unexpected end of payload"
        else
          match goSliceL payload (off + 1) (off + 1 + topicNameLength) with
          | none => .crash "slice bounds out of range"
          | some name =>
            let off2 := off + 1 + topicNameLength
            let off3 :=
              if off2 < (payload.length : Int) ∧ goIndex payload off2 = some 0
              then off2 + 1 else off2
            match writeTopic buf i name with
            | none => .crash "slice bounds out of range"
            | some (buf', i') => dtpLoop payload n off3 buf' i'

/-- `handleDescribeTopicPartitionsRequest`: parse the payload (client
id, tag buffer, compact topics array) and build the response body. -/
def handleDescribeTopicPartitionsRequest (req : Request) : GoResult (List Nat) :=
  let payload := req.Payload
  if (payload.length : Int) ≤ 0 then
    .err "unexpected end of payload when reading client ID length"
  else if payload.length < 2 then
    -- binary.BigEndian.Uint16(Payload[0:2]) on a 1-byte payload
    .crash "slice bounds out of range"
  else
    let clientIDLength : Int := (payload.getD 0 0 * 256 + payload.getD 1 0 : Nat)
    let off : Int := 2 + clientIDLength
    if (payload.length : Int) ≤ off then
      .err "unexpected end of payload when reading client ID tag buffer"
    else
      let off := off + 1
      if (payload.length : Int) ≤ off then
        .err "unexpected end of payload when reading topics array length"
      else
        match goIndex payload off with
        | none => .crash "index out of range"
        | some cnt =>
          let topicArrayLength : Int := (cnt : Int) - 1
          if topicArrayLength < 0 then
            .err "invalid topics array length"
          else
            let off := off + 1
            let n := topicArrayLength.toNat
            let response := List.replicate (12 + 40 * n) 0
            let response := putAt response 0 (be32 (u32 req.CorrelationID))
            let response := putAt response 4 [0]
            let response := putAt response 5 (be32 0)
            let response := putAt response 9 [(n + 1) % 256]
            match dtpLoop payload n off response 10 with
            | .err m => .err m
            | .crash m => .crash m
            | .ok (buf, i) =>
              match wr buf i [255] with
              | none => .crash "slice bounds out of range"
              | some buf2 =>
                match wr buf2 (i + 1) [0] with
                | none => .crash "slice bounds out of range"
                | some buf3 => .ok (buf3.take (i + 2))

/-- `RequestHandler.HandleRequest`: version gate, then dispatch on the
api key; the `.ok` value is the full byte sequence written to the
connection. -/
def HandleRequest (req : Request) : GoResult (List Nat) :=
  if req.ApiVersion < MinSupportedVersion ∨ MaxSupportedVersion < req.ApiVersion then
    .ok (sendRawResponse (sendErrorResponseData req.CorrelationID ErrorUnsupportedVersion))
  else if req.ApiKey = ApiVersionsKey then
    .ok (sendRawResponse (handleApiVersionsRequest req))
  else if req.ApiKey = DescribeTopicPartitionsKey then
    GoResult.map sendRawResponse (handleDescribeTopicPartitionsRequest req)
  else
    .ok (sendRawResponse (handleGenericRequestData req))

/-! ### Framing (internal/kafka/parser.go) -/

/-- Consume exactly `k` bytes from the stream (`binary.Read` of a fixed
width field / `io.ReadFull`); `none` if the stream is too short. -/
def readN (k : Nat) (input : List Nat) : Option (List Nat × List Nat) :=
  if k ≤ input.length then some (input.take k, input.drop k) else none

/-- `MessageParser.ReadRequest` on a byte stream: 4-byte length, 2-byte
api key, 2-byte api version, 4-byte correlation id, then
`make([]byte, Length-8)` (int32 arithmetic) and `io.ReadFull`.
Returns the request and the unconsumed remainder of the stream. -/
def ReadRequest (input : List Nat) : GoResult (Request × List Nat) :=
  match readN 4 input with
  | none => .err "EOF"
  | some (lb, r1) =>
    let lengthV := toInt32 (beNat lb)
    match readN 2 r1 with
    | none => .err "EOF"
    | some (kb, r2) =>
      let apiKeyV := toInt16 (beNat kb)
      match readN 2 r2 with
      | none => .err "EOF"
      | some (vb, r3) =>
        let apiVersionV := toInt16 (beNat vb)
        match readN 4 r3 with
        | none => .err "EOF"
        | some (cb, r4) =>
          let correlationIDV := toInt32 (beNat cb)
          let size : Int := wrap32 (lengthV - 8)
          if size < 0 then .crash "makeslice: len out of range"
          else
            match readN size.toNat r4 with
            | none => .err "unexpected EOF"
            | some (pl, r5) =>
              .ok ({ Length := lengthV, ApiKey := apiKeyV,
                     ApiVersion := apiVersionV,
                     CorrelationID := correlationIDV, Payload := pl }, r5)

/-- `Server.handleConnection` read/handle loop (fuel-bounded): the list
of responses written on the connection; any read error, handler error
or panic terminates the connection. -/
def handleConnection : Nat → List Nat → List (List Nat)
  | 0, _ => []
  | fuel + 1, input =>
    match ReadRequest input with
    | .err _ => []
    | .crash _ => []
    | .ok (req, rest) =>
      match HandleRequest req with
      | .ok out => out :: handleConnection fuel rest
      | .err _ => []
      | .crash _ => []

/-! ### Byte-level descriptions of the fixed-size responses -/

theorem apiv_bytes (req : Request) :
    handleApiVersionsRequest req =
      be32 (u32 req.CorrelationID) ++
        [0, 0, 3, 0, 18, 0, 0, 0, 4, 0, 0, 75, 0, 0, 0, 0, 0, 0, 0, 0, 0, 0] := by
  simp [handleApiVersionsRequest, putAt, be16, be32, u16, ErrorNone,
    ApiVersionsKey, ApiVersionsMinVersion, ApiVersionsMaxVersion,
    DescribeTopicPartitionsKey, DescribeTopicMinVersion, DescribeTopicMaxVersion,
    List.replicate]

theorem errdata_bytes (c : Int) (e : Nat) :
    sendErrorResponseData c e = be32 (u32 c) ++ be16 e := by
  simp [sendErrorResponseData, putAt, be16, be32, List.replicate]

theorem generic_bytes (req : Request) :
    handleGenericRequestData req = be32 (u32 req.CorrelationID) ++ [0, 0] := by
  simp [handleGenericRequestData, putAt, be16, be32, ErrorNone, List.replicate]

/-- Concrete ApiVersions request used by witnesses. -/
def reqAV : Request :=
  { Length := 12, ApiKey := 18, ApiVersion := 3, CorrelationID := 99, Payload := [] }

/-- C1: for an ApiVersions request with version in [0,4], the response
body produced by handleApiVersionsRequest is what HandleRequest sends;
its first 4 bytes are the request's correlation id, bytes 4-5 are error
code 0, and the api-key table contains an entry for key 18 (bytes 7-8)
whose max-version field (bytes 11-12) is the encoding of 4 and decodes
(big-endian uint16, via beNat) to a value that is at least 4. -/
theorem claim_C1 (req : Request) (hk : req.ApiKey = 18)
    (h0 : 0 ≤ req.ApiVersion) (h4 : req.ApiVersion ≤ 4) :
    HandleRequest req = .ok (sendRawResponse (handleApiVersionsRequest req)) ∧
    (handleApiVersionsRequest req).take 4 = be32 (u32 req.CorrelationID) ∧
    ((handleApiVersionsRequest req).drop 4).take 2 = be16 0 ∧
    ((handleApiVersionsRequest req).drop 7).take 2 = be16 18 ∧
    ((handleApiVersionsRequest req).drop 11).take 2 = be16 4 ∧
    4 ≤ beNat (((handleApiVersionsRequest req).drop 11).take 2) := by
  refine ⟨?_, ?_, ?_, ?_, ?_, ?_⟩
  · simp only [HandleRequest, MinSupportedVersion, MaxSupportedVersion, ApiVersionsKey]
    rw [if_neg (by omega), if_pos hk]
  all_goals rw [apiv_bytes]; simp [be32, be16, beNat]

theorem claim_C1_witness :
    HandleRequest reqAV = .ok (sendRawResponse (handleApiVersionsRequest reqAV)) ∧
    (handleApiVersionsRequest reqAV).take 4 = be32 (u32 reqAV.CorrelationID) ∧
    ((handleApiVersionsRequest reqAV).drop 4).take 2 = be16 0 ∧
    ((handleApiVersionsRequest reqAV).drop 7).take 2 = be16 18 ∧
    ((handleApiVersionsRequest reqAV).drop 11).take 2 = be16 4 ∧
    4 ≤ beNat (((handleApiVersionsRequest reqAV).drop 11).take 2) :=
  claim_C1 reqAV rfl (by decide) (by decide)

/-- C2: any request whose api version is outside [0,4] gets, whatever
its api key, the framed error response: length prefix 6, then the
correlation id (4 bytes) and error code 35 (2 bytes) - exactly 6 bytes
after the prefix - and the handler reports no transport-level error
(the result is `.ok`, not `.err`/`.crash`). -/
theorem claim_C2 (req : Request)
    (h : req.ApiVersion < 0 ∨ 4 < req.ApiVersion) :
    HandleRequest req = .ok ([0, 0, 0, 6] ++ be32 (u32 req.CorrelationID) ++ [0, 35]) := by
  simp only [HandleRequest, MinSupportedVersion, MaxSupportedVersion]
  rw [if_pos h, errdata_bytes]
  simp [sendRawResponse, be32, be16, u32, ErrorUnsupportedVersion]

theorem claim_C2_witness :
    HandleRequest { Length := 12, ApiKey := 18, ApiVersion := 5,
                    CorrelationID := 3, Payload := [] } =
      .ok [0, 0, 0, 6, 0, 0, 0, 3, 0, 35] := by
  have h := claim_C2 { Length := 12, ApiKey := 18, ApiVersion := 5,
                       CorrelationID := 3, Payload := [] } (by decide)
  simpa [be32, u32] using h

/-- C5: for an ApiVersions request with version in [0,4], the response
body is: correlation id, error code 0, a compact api-key array of
exactly two entries (count byte 2+1) - key 18 with versions [0,4] and
key 75 with versions [0,0], each with an empty tag buffer - then a zero
throttle time and the response tag buffer. -/
theorem claim_C5 (req : Request) (hk : req.ApiKey = ApiVersionsKey)
    (h0 : 0 ≤ req.ApiVersion) (h4 : req.ApiVersion ≤ 4) :
    HandleRequest req = .ok (sendRawResponse (handleApiVersionsRequest req)) ∧
    handleApiVersionsRequest req =
      be32 (u32 req.CorrelationID) ++ be16 0 ++ [2 + 1] ++
        (be16 18 ++ be16 0 ++ be16 4 ++ [0]) ++
        (be16 75 ++ be16 0 ++ be16 0 ++ [0]) ++ be32 0 ++ [0] := by
  constructor
  · simp only [HandleRequest, MinSupportedVersion, MaxSupportedVersion]
    rw [if_neg (by omega), if_pos hk]
  · rw [apiv_bytes]; simp [be32, be16]

theorem claim_C5_witness :
    HandleRequest reqAV = .ok (sendRawResponse (handleApiVersionsRequest reqAV)) ∧
    handleApiVersionsRequest reqAV =
      be32 (u32 reqAV.CorrelationID) ++ be16 0 ++ [2 + 1] ++
        (be16 18 ++ be16 0 ++ be16 4 ++ [0]) ++
        (be16 75 ++ be16 0 ++ be16 0 ++ [0]) ++ be32 0 ++ [0] :=
  claim_C5 reqAV rfl (by decide) (by decide)

theorem beNat_lt {l : List Nat} (hb : ∀ b ∈ l, b < 256) : beNat l < 256 ^ l.length := by
  induction l with
  | nil => simp [beNat]
  | cons b t ih =>
    have hbh : b < 256 := hb b (by simp)
    have iht : beNat t < 256 ^ t.length := ih fun x hx => hb x (by simp [hx])
    have hp : 0 < 256 ^ t.length := pow_pos (by norm_num) _
    simp only [beNat, List.length_cons, pow_succ]
    nlinarith

theorem toInt32_range {n : Nat} (h : n < 4294967296) :
    -2147483648 ≤ toInt32 n ∧ toInt32 n < 2147483648 := by
  unfold toInt32; split_ifs with h1 <;> omega

theorem wrap32_eq {x : Int} (h1 : -2147483648 ≤ x) (h2 : x < 2147483648) :
    wrap32 x = x := by
  unfold wrap32; omega

theorem readRequest_eq_of_len {input : List Nat} (h12 : 12 ≤ input.length) :
    ReadRequest input =
      (if wrap32 (toInt32 (beNat (input.take 4)) - 8) < 0 then
        .crash "makeslice: len out of range"
      else if (wrap32 (toInt32 (beNat (input.take 4)) - 8)).toNat ≤ input.length - 12 then
        .ok ({ Length := toInt32 (beNat (input.take 4)),
               ApiKey := toInt16 (beNat ((input.drop 4).take 2)),
               ApiVersion := toInt16 (beNat ((input.drop 6).take 2)),
               CorrelationID := toInt32 (beNat ((input.drop 8).take 4)),
               Payload := (input.drop 12).take
                 (wrap32 (toInt32 (beNat (input.take 4)) - 8)).toNat },
             (input.drop 12).drop (wrap32 (toInt32 (beNat (input.take 4)) - 8)).toNat)
      else .err "unexpected EOF") := by
  have e1 : readN 4 input = some (input.take 4, input.drop 4) := by
    simp only [readN, if_pos (by omega : 4 ≤ input.length)]
  have l4 : (input.drop 4).length = input.length - 4 := by simp
  have e2 : readN 2 (input.drop 4) = some ((input.drop 4).take 2, (input.drop 4).drop 2) := by
    simp only [readN, l4, if_pos (by omega : 2 ≤ input.length - 4)]
  have d6 : (input.drop 4).drop 2 = input.drop 6 := by
    rw [List.drop_drop]
  have l6 : (input.drop 6).length = input.length - 6 := by simp
  have e3 : readN 2 (input.drop 6) = some ((input.drop 6).take 2, (input.drop 6).drop 2) := by
    simp only [readN, l6, if_pos (by omega : 2 ≤ input.length - 6)]
  have d8 : (input.drop 6).drop 2 = input.drop 8 := by
    rw [List.drop_drop]
  have l8 : (input.drop 8).length = input.length - 8 := by simp
  have e4 : readN 4 (input.drop 8) = some ((input.drop 8).take 4, (input.drop 8).drop 4) := by
    simp only [readN, l8, if_pos (by omega : 4 ≤ input.length - 8)]
  have d12 : (input.drop 8).drop 4 = input.drop 12 := by
    rw [List.drop_drop]
  simp only [ReadRequest, e1, e2, d6, e3, d8, e4, d12]
  by_cases hneg : wrap32 (toInt32 (beNat (input.take 4)) - 8) < 0
  · simp [hneg]
  · simp only [if_neg hneg]
    have l12 : (input.drop 12).length = input.length - 12 := by simp
    by_cases hle : (wrap32 (toInt32 (beNat (input.take 4)) - 8)).toNat ≤ input.length - 12
    · simp only [readN, l12, if_pos hle, if_neg hneg]
    · simp only [readN, l12, if_neg hle, if_neg hneg]

theorem readRequest_header_short {input : List Nat} (h4 : 4 ≤ input.length)
    (h : input.length < 12) : ReadRequest input = .err "EOF" := by
  have e1 : readN 4 input = some (input.take 4, input.drop 4) := by
    simp only [readN, if_pos h4]
  have l4 : (input.drop 4).length = input.length - 4 := by simp
  by_cases c2 : 2 ≤ input.length - 4
  · have e2 : readN 2 (input.drop 4) = some ((input.drop 4).take 2, (input.drop 4).drop 2) := by
      simp only [readN, l4, if_pos c2]
    have d6 : (input.drop 4).drop 2 = input.drop 6 := by rw [List.drop_drop]
    by_cases c3 : 2 ≤ input.length - 6
    · have e3 : readN 2 (input.drop 6) =
          some ((input.drop 6).take 2, (input.drop 6).drop 2) := by
        simp only [readN, List.length_drop, if_pos c3]
      have d8 : (input.drop 6).drop 2 = input.drop 8 := by rw [List.drop_drop]
      have e4 : readN 4 (input.drop 8) = none := by
        simp only [readN, List.length_drop]
        rw [if_neg (by omega)]
      simp only [ReadRequest, e1, e2, d6, e3, d8, e4]
    · have e3 : readN 2 (input.drop 6) = none := by
        simp only [readN, List.length_drop]
        rw [if_neg (by omega)]
      simp only [ReadRequest, e1, e2, d6, e3]
  · have e2 : readN 2 (input.drop 4) = none := by
      simp only [readN, l4, if_neg c2]
    simp only [ReadRequest, e1, e2]

/-- C6: with `L` the 4-byte big-endian (signed) length field, `L ≥ 8`:
if at least `4 + L` bytes are available, ReadRequest succeeds consuming
exactly `4 + L` bytes (8 header bytes and an `L-8`-byte payload) and
returns the rest of the stream untouched; if fewer are available it
returns an error; and on any ReadRequest error the connection loop
terminates immediately, writing nothing and not retrying. -/
theorem claim_C6 (input : List Nat) (hb : ∀ b ∈ input, b < 256)
    (h4 : 4 ≤ input.length)
    (h8 : 8 ≤ toInt32 (beNat (input.take 4))) :
    (4 + (toInt32 (beNat (input.take 4))).toNat ≤ input.length →
      ReadRequest input =
        .ok ({ Length := toInt32 (beNat (input.take 4)),
               ApiKey := toInt16 (beNat ((input.drop 4).take 2)),
               ApiVersion := toInt16 (beNat ((input.drop 6).take 2)),
               CorrelationID := toInt32 (beNat ((input.drop 8).take 4)),
               Payload := (input.drop 12).take
                 ((toInt32 (beNat (input.take 4))).toNat - 8) },
             input.drop (4 + (toInt32 (beNat (input.take 4))).toNat)) ∧
      ((input.drop 12).take ((toInt32 (beNat (input.take 4))).toNat - 8)).length + 8 =
        (toInt32 (beNat (input.take 4))).toNat) ∧
    (input.length < 4 + (toInt32 (beNat (input.take 4))).toNat →
      ∃ m, ReadRequest input = .err m) ∧
    (∀ m fuel, ReadRequest input = .err m → handleConnection (fuel + 1) input = []) := by
  have hby : ∀ b ∈ input.take 4, b < 256 := fun b hb' => hb b (List.take_subset _ _ hb')
  have hlen4 : (input.take 4).length = 4 := by
    simp [List.length_take, min_eq_left h4]
  have hlt : beNat (input.take 4) < 4294967296 := by
    have := beNat_lt hby
    rw [hlen4] at this
    norm_num at this
    exact this
  have hr := toInt32_range hlt
  have hw : wrap32 (toInt32 (beNat (input.take 4)) - 8) =
      toInt32 (beNat (input.take 4)) - 8 := wrap32_eq (by omega) (by omega)
  have hwt : (toInt32 (beNat (input.take 4)) - 8).toNat =
      (toInt32 (beNat (input.take 4))).toNat - 8 := by omega
  refine ⟨?_, ?_, ?_⟩
  · intro hA
    have h12 : 12 ≤ input.length := by omega
    constructor
    · rw [readRequest_eq_of_len h12, if_neg (by rw [hw]; omega),
        if_pos (by rw [hw, hwt]; omega)]
      simp only [hw, hwt]
      rw [List.drop_drop]
      have hidx : 12 + ((toInt32 (beNat (input.take 4))).toNat - 8) =
          4 + (toInt32 (beNat (input.take 4))).toNat := by omega
      rw [hidx]
    · simp only [List.length_take, List.length_drop]
      omega
  · intro hB
    by_cases h12 : 12 ≤ input.length
    · refine ⟨"unexpected EOF", ?_⟩
      rw [readRequest_eq_of_len h12, if_neg (by rw [hw]; omega),
        if_neg (by rw [hw, hwt]; omega)]
    · exact ⟨"EOF", readRequest_header_short h4 (by omega)⟩
  · intro m fuel hm
    simp [handleConnection, hm]



/-- Concrete request frame used by the C6 witness. -/
def inC6 : List Nat := [0, 0, 0, 9, 0, 18, 0, 0, 0, 0, 0, 7, 42]

theorem claim_C6_witness :
    (4 + (toInt32 (beNat (inC6.take 4))).toNat ≤ inC6.length →
      ReadRequest inC6 =
        .ok ({ Length := toInt32 (beNat (inC6.take 4)),
               ApiKey := toInt16 (beNat ((inC6.drop 4).take 2)),
               ApiVersion := toInt16 (beNat ((inC6.drop 6).take 2)),
               CorrelationID := toInt32 (beNat ((inC6.drop 8).take 4)),
               Payload := (inC6.drop 12).take
                 ((toInt32 (beNat (inC6.take 4))).toNat - 8) },
             inC6.drop (4 + (toInt32 (beNat (inC6.take 4))).toNat)) ∧
      ((inC6.drop 12).take ((toInt32 (beNat (inC6.take 4))).toNat - 8)).length + 8 =
        (toInt32 (beNat (inC6.take 4))).toNat) ∧
    (inC6.length < 4 + (toInt32 (beNat (inC6.take 4))).toNat →
      ∃ m, ReadRequest inC6 = .err m) ∧
    (∀ m fuel, ReadRequest inC6 = .err m → handleConnection (fuel + 1) inC6 = []) :=
  claim_C6 inC6 (by decide) (by decide) (by decide)

/-- A frame whose declared length is the int32 minimum -2147483648:
`Length-8` wraps to the positive int32 2147483640, so `make` does not
panic and ReadRequest instead fails the payload read. -/
def inC9 : List Nat := [128, 0, 0, 0, 0, 18, 0, 0, 0, 0, 0, 1]

/-- C9 counterexample: a frame whose 4-byte length field is less than 8
(namely -2147483648) on which ReadRequest returns an error rather than
panicking, because the int32 subtraction `Length-8` wraps to a positive
size. -/
theorem claim_C9_counterexample :
    ReadRequest inC9 = .err "unexpected EOF" ∧
    toInt32 (beNat (inC9.take 4)) < 8 := by decide

/-- C9 as amended: with `size` the int32 value `Length-8` (wrap32), a
negative `size` - equivalently -2147483640 ≤ Length < 8 - makes
ReadRequest panic at `make([]byte, size)`; every error return (in
particular the truncated-frame error) happens only when `size` is
nonnegative, i.e. Length ≥ 8 or Length < -2147483640. -/
theorem claim_C9_amended (input : List Nat) (hb : ∀ b ∈ input, b < 256)
    (h12 : 12 ≤ input.length) :
    (wrap32 (toInt32 (beNat (input.take 4)) - 8) < 0 →
      ReadRequest input = .crash "makeslice: len out of range") ∧
    (∀ m, ReadRequest input = .err m →
      0 ≤ wrap32 (toInt32 (beNat (input.take 4)) - 8)) ∧
    (wrap32 (toInt32 (beNat (input.take 4)) - 8) < 0 ↔
      -2147483640 ≤ toInt32 (beNat (input.take 4)) ∧
        toInt32 (beNat (input.take 4)) < 8) := by
  have hby : ∀ b ∈ input.take 4, b < 256 := fun b hb' => hb b (List.take_subset _ _ hb')
  have hlen4 : (input.take 4).length = 4 := by
    simp [List.length_take, min_eq_left (by omega : 4 ≤ input.length)]
  have hlt : beNat (input.take 4) < 4294967296 := by
    have := beNat_lt hby
    rw [hlen4] at this
    norm_num at this
    exact this
  have hr := toInt32_range hlt
  refine ⟨?_, ?_, ?_⟩
  · intro hneg
    rw [readRequest_eq_of_len h12, if_pos hneg]
  · intro m hm
    by_cases hneg : wrap32 (toInt32 (beNat (input.take 4)) - 8) < 0
    · rw [readRequest_eq_of_len h12, if_pos hneg] at hm
      exact absurd hm (by simp)
    · omega
  · unfold wrap32
    omega

/-- Concrete frame with declared length 7 used by the C9 witness. -/
def inC9w : List Nat := [0, 0, 0, 7, 0, 18, 0, 0, 0, 0, 0, 9]

theorem claim_C9_witness :
    (wrap32 (toInt32 (beNat (inC9w.take 4)) - 8) < 0 →
      ReadRequest inC9w = .crash "makeslice: len out of range") ∧
    (∀ m, ReadRequest inC9w = .err m →
      0 ≤ wrap32 (toInt32 (beNat (inC9w.take 4)) - 8)) ∧
    (wrap32 (toInt32 (beNat (inC9w.take 4)) - 8) < 0 ↔
      -2147483640 ≤ toInt32 (beNat (inC9w.take 4)) ∧
        toInt32 (beNat (inC9w.take 4)) < 8) :=
  claim_C9_amended inC9w (by decide) (by decide)

/-! ### DescribeTopicPartitions response-buffer lemmas -/

theorem putAt_append (A : List Nat) (m : Nat) (vs : List Nat) :
    putAt (A ++ List.replicate m 0) A.length vs =
      A ++ vs ++ List.replicate (m - vs.length) 0 := by
  unfold putAt
  rw [List.take_left, List.drop_append, List.drop_replicate]

theorem putAt?_append (A : List Nat) (m : Nat) (vs : List Nat) :
    putAt? (A ++ List.replicate m 0) A.length vs =
      if vs.length ≤ m then
        some (A ++ vs ++ List.replicate (m - vs.length) 0)
      else none := by
  unfold putAt?
  by_cases h : vs.length ≤ m
  · rw [if_pos h,
      if_pos (by simp only [List.length_append, List.length_replicate]; omega),
      putAt_append A m vs]
  · rw [if_neg h,
      if_neg (by simp only [List.length_append, List.length_replicate]; omega)]

theorem ensure_append (A : List Nat) (m k : Nat) :
    ensure (A ++ List.replicate m 0) k =
      A ++ List.replicate (if A.length + m < k then m + (A.length + m) else m) 0 := by
  unfold ensure
  have hl : (A ++ List.replicate m (0:Nat)).length = A.length + m := by simp
  by_cases h : A.length + m < k
  · rw [if_pos h, if_pos (by rw [hl]; exact h), List.append_assoc, ← List.replicate_add,
      hl]
  · rw [if_neg h, if_neg (by rw [hl]; exact h)]

theorem wr_append_some {A : List Nat} {m : Nat} {vs out : List Nat}
    (h : wr (A ++ List.replicate m 0) A.length vs = some out) :
    ∃ m', out = A ++ vs ++ List.replicate m' 0 ∧ m ≤ vs.length + m' := by
  unfold wr at h
  rw [ensure_append, putAt?_append] at h
  split_ifs at h
  all_goals exact ⟨_, (Option.some.inj h).symm, by omega⟩

theorem wrName_append_some {A : List Nat} {m : Nat} {name out : List Nat}
    (h : wrName (A ++ List.replicate m 0) A.length name = some out) :
    ∃ m', out = A ++ [(name.length + 1) % 256] ++ name ++ List.replicate m' 0 ∧
      m ≤ 1 + name.length + m' := by
  unfold wrName at h
  rw [ensure_append, putAt?_append] at h
  rw [Option.bind_eq_some] at h
  obtain ⟨b2, hb2, hout⟩ := h
  split_ifs at hb2
  all_goals
    obtain rfl := Option.some.inj hb2
    rw [show A.length + 1 = (A ++ [(name.length + 1) % 256]).length by simp] at hout
    rw [putAt?_append] at hout
    split_ifs at hout
    all_goals exact ⟨_, (Option.some.inj hout).symm, by
      have hx : ([(name.length + 1) % 256] : List Nat).length = 1 := rfl
      omega⟩

theorem ensure16_append (A : List Nat) (m : Nat) (h16 : 16 ≤ A.length + m) :
    ∃ m', ensure (A ++ List.replicate m 0) (A.length + 16) =
      A ++ List.replicate 16 0 ++ List.replicate m' 0 := by
  rw [ensure_append]
  by_cases h : A.length + m < A.length + 16
  · refine ⟨m + (A.length + m) - 16, ?_⟩
    rw [if_pos h, List.append_assoc, ← List.replicate_add]
    congr 2
    omega
  · refine ⟨m - 16, ?_⟩
    rw [if_neg h, List.append_assoc, ← List.replicate_add]
    congr 2
    omega

theorem writeTopic_append {A : List Nat} {m : Nat} {name out : List Nat} {r' : Nat}
    (h16 : 16 ≤ A.length + m)
    (h : writeTopic (A ++ List.replicate m 0) A.length name = some (out, r')) :
    ∃ m', out = A ++ topicEntry name ++ List.replicate m' 0 ∧
      r' = A.length + (26 + name.length) := by
  have hbe2 : (be16 ErrorUnknownTopic).length = 2 := rfl
  have hbe4 : (be32 0x00000df8).length = 4 := rfl
  have hx1 : ([(name.length + 1) % 256] : List Nat).length = 1 := rfl
  unfold writeTopic at h
  rw [Option.bind_eq_some] at h
  obtain ⟨b1, hb1, h⟩ := h
  obtain ⟨m1, rfl, hm1⟩ := wr_append_some hb1
  rw [Option.bind_eq_some] at h
  obtain ⟨b2, hb2, h⟩ := h
  rw [show A.length + 2 = (A ++ be16 ErrorUnknownTopic).length by simp [be16]] at hb2
  obtain ⟨m2, rfl, hm2⟩ := wrName_append_some hb2
  rw [Option.bind_eq_some] at h
  obtain ⟨b4, hb4, h⟩ := h
  rw [show A.length + 3 + name.length + 16 =
    (A ++ be16 ErrorUnknownTopic ++ [(name.length + 1) % 256] ++ name).length + 16 by
      simp [be16]; omega] at hb4
  obtain ⟨m3, he⟩ := ensure16_append
    (A ++ be16 ErrorUnknownTopic ++ [(name.length + 1) % 256] ++ name) m2
    (by simp [be16]; omega)
  rw [he] at hb4
  rw [show A.length + 19 + name.length =
    (A ++ be16 ErrorUnknownTopic ++ [(name.length + 1) % 256] ++ name ++
      List.replicate 16 0).length by simp [be16]; omega] at hb4
  obtain ⟨m4, rfl, hm4⟩ := wr_append_some hb4
  rw [Option.bind_eq_some] at h
  obtain ⟨b5, hb5, h⟩ := h
  rw [show A.length + 20 + name.length =
    (A ++ be16 ErrorUnknownTopic ++ [(name.length + 1) % 256] ++ name ++
      List.replicate 16 0 ++ [0]).length by simp [be16]; omega] at hb5
  obtain ⟨m5, rfl, hm5⟩ := wr_append_some hb5
  rw [Option.bind_eq_some] at h
  obtain ⟨b6, hb6, h⟩ := h
  rw [show A.length + 21 + name.length =
    (A ++ be16 ErrorUnknownTopic ++ [(name.length + 1) % 256] ++ name ++
      List.replicate 16 0 ++ [0] ++ [1]).length by simp [be16]; omega] at hb6
  obtain ⟨m6, rfl, hm6⟩ := wr_append_some hb6
  rw [Option.bind_eq_some] at h
  obtain ⟨b7, hb7, h⟩ := h
  rw [show A.length + 25 + name.length =
    (A ++ be16 ErrorUnknownTopic ++ [(name.length + 1) % 256] ++ name ++
      List.replicate 16 0 ++ [0] ++ [1] ++ be32 0x00000df8).length by
      simp [be16, be32]; omega] at hb7
  obtain ⟨m7, rfl, hm7⟩ := wr_append_some hb7
  obtain ⟨rfl, rfl⟩ := Prod.mk.injEq .. ▸ (Option.some.inj h)
  refine ⟨m7, ?_, by omega⟩
  simp [topicEntry, be16, be32, List.append_assoc]



theorem topicEntry_length (name : List Nat) :
    (topicEntry name).length = 26 + name.length := by
  simp [topicEntry, be16, be32]
  omega

theorem goIndex_some {l : List Nat} {i : Int} {b : Nat}
    (h : goIndex l i = some b) : b ∈ l ∧ 0 ≤ i := by
  unfold goIndex at h
  split_ifs at h with h0
  exact ⟨List.get?_mem h, h0⟩

theorem goSliceL_some {l : List Nat} {a b : Int} {nm : List Nat}
    (h : goSliceL l a b = some nm) :
    nm.length ≤ (b - a).toNat := by
  unfold goSliceL at h
  split_ifs at h
  obtain rfl := (Option.some.inj h).symm
  simp [List.length_take]

theorem dtpLoop_append (payload : List Nat) :
    ∀ (n : Nat) (off : Int) (A : List Nat) (m i0 : Nat) (out : List Nat) (r' : Nat),
    i0 = A.length →
    (n ≠ 0 → 16 ≤ A.length + m) →
    dtpLoop payload n off (A ++ List.replicate m 0) i0 = .ok (out, r') →
    ∃ (names : List (List Nat)) (m' : Nat),
      names.length = n ∧
      out = A ++ (names.map topicEntry).flatten ++ List.replicate m' 0 ∧
      r' = A.length + ((names.map topicEntry).flatten).length ∧
      ((∀ x ∈ payload, x < 256) → ∀ nm ∈ names, nm.length ≤ 254) := by
  intro n
  induction n with
  | zero =>
    intro off A m i0 out r' hi0 _h16 h
    subst hi0
    simp only [dtpLoop] at h
    obtain ⟨h1, h2⟩ := Prod.mk.injEq .. ▸ (GoResult.ok.inj h)
    refine ⟨[], m, rfl, ?_, ?_, by intro _ nm hnm; cases hnm⟩
    · simp [← h1]
    · simp [h2]
  | succ n ih =>
    intro off A m i0 out r' hi0 h16 h
    subst hi0
    simp only [dtpLoop] at h
    split at h
    · exact (GoResult.noConfusion h)
    · split at h
      · exact (GoResult.noConfusion h)
      · rename_i b heq
        split at h
        · exact (GoResult.noConfusion h)
        · split at h
          · exact (GoResult.noConfusion h)
          · rename_i name heq2
            split at h
            · exact (GoResult.noConfusion h)
            · rename_i buf' i' heq3
              obtain ⟨mw, rfl, hi'⟩ :=
                writeTopic_append (h16 (by omega)) heq3
              rw [hi', show A.length + (26 + name.length) =
                (A ++ topicEntry name).length by
                  rw [List.length_append, topicEntry_length]] at h
              obtain ⟨names', m'', hlen, hout, hr, hbd⟩ :=
                ih _ (A ++ topicEntry name) mw _ out r' rfl
                  (fun _ => by simp [topicEntry_length]; omega) h
              refine ⟨name :: names', m'', by simp [hlen], ?_, ?_, ?_⟩
              · rw [hout]
                simp [List.append_assoc]
              · rw [hr]
                simp [topicEntry_length]
                omega
              · intro hb nm hnm
                rcases List.mem_cons.mp hnm with rfl | hnm
                · obtain ⟨hmem, _⟩ := goIndex_some heq
                  have hb256 : b < 256 := hb b hmem
                  have hsl := goSliceL_some heq2
                  omega
                · exact hbd hb nm hnm



theorem putAt_chunk (A : List Nat) (m : Nat) (vs : List Nat) (i mr : Nat)
    (hi : i = A.length) (hm : mr + vs.length = m) :
    putAt (A ++ List.replicate m 0) i vs = A ++ vs ++ List.replicate mr 0 := by
  subst hi
  rw [putAt_append]
  have : m - vs.length = mr := by omega
  rw [this]

theorem dtp_header (c : Int) (n : Nat) :
    putAt (putAt (putAt (putAt (List.replicate (12 + 40 * n) 0) 0
        (be32 (u32 c))) 4 [0]) 5 (be32 0)) 9 [(n + 1) % 256] =
      be32 (u32 c) ++ [0] ++ be32 0 ++ [(n + 1) % 256] ++
        List.replicate (2 + 40 * n) 0 := by
  rw [show List.replicate (12 + 40 * n) (0:Nat) =
    [] ++ List.replicate (12 + 40 * n) 0 from rfl]
  rw [putAt_chunk [] (12 + 40 * n) (be32 (u32 c)) 0 (8 + 40 * n) rfl
    (by simp [be32]; omega)]
  rw [putAt_chunk ([] ++ be32 (u32 c)) (8 + 40 * n) [0] 4 (7 + 40 * n)
    (by simp [be32]) (by simp; omega)]
  rw [putAt_chunk ([] ++ be32 (u32 c) ++ [0]) (7 + 40 * n) (be32 0) 5 (3 + 40 * n)
    (by simp [be32]) (by simp [be32]; omega)]
  rw [putAt_chunk ([] ++ be32 (u32 c) ++ [0] ++ be32 0) (3 + 40 * n)
    [(n + 1) % 256] 9 (2 + 40 * n) (by simp [be32]) (by simp; omega)]
  simp



theorem dtp_ok_shape {req : Request} {out : List Nat}
    (h : handleDescribeTopicPartitionsRequest req = .ok out) :
    ∃ names : List (List Nat),
      out = be32 (u32 req.CorrelationID) ++ [0] ++ be32 0 ++
        [(names.length + 1) % 256] ++ (names.map topicEntry).flatten ++ [255, 0] ∧
      ((∀ x ∈ req.Payload, x < 256) →
        names.length ≤ 254 ∧ ∀ nm ∈ names, nm.length ≤ 254) := by
  simp only [handleDescribeTopicPartitionsRequest] at h
  split at h
  · exact (GoResult.noConfusion h)
  split at h
  · exact (GoResult.noConfusion h)
  split at h
  · exact (GoResult.noConfusion h)
  split at h
  · exact (GoResult.noConfusion h)
  split at h
  · exact (GoResult.noConfusion h)
  rename_i cnt heqc
  split at h
  · exact (GoResult.noConfusion h)
  rename_i htal
  rw [dtp_header] at h
  split at h
  · exact (GoResult.noConfusion h)
  · exact (GoResult.noConfusion h)
  rename_i buf i heqLoop
  obtain ⟨names, m', hlen, rfl, hi, hbd⟩ :=
    dtpLoop_append req.Payload ((cnt : Int) - 1).toNat _
      (be32 (u32 req.CorrelationID) ++ [0] ++ be32 0 ++
        [(((cnt : Int) - 1).toNat + 1) % 256])
      (2 + 40 * ((cnt : Int) - 1).toNat) 10 buf i
      (by simp [be32]) (fun hn => by simp [be32]; omega) heqLoop
  rw [hi, ← List.length_append] at h
  set B := be32 (u32 req.CorrelationID) ++ [0] ++ be32 0 ++
    [(((cnt : Int) - 1).toNat + 1) % 256] ++ (names.map topicEntry).flatten with hBB
  split at h
  · exact (GoResult.noConfusion h)
  rename_i buf2 heqw1
  obtain ⟨m2, rfl, hmb2⟩ := wr_append_some heqw1
  rw [show B.length + 1 = (B ++ [255]).length by simp] at h
  split at h
  · exact (GoResult.noConfusion h)
  rename_i buf3 heqw2
  obtain ⟨m3, rfl, hmb3⟩ := wr_append_some heqw2
  have hout : out = B ++ [255] ++ [0] := by
    have h2 := GoResult.ok.inj h
    rw [← h2]
    rw [show B.length + 2 = ((B ++ [255]) ++ [0]).length by simp]
    exact List.take_left _ _
  refine ⟨names, ?_, ?_⟩
  · rw [hout, hBB, hlen]
    simp [List.append_assoc]
  · intro hb
    obtain ⟨hmem, _⟩ := goIndex_some heqc
    have hc256 : cnt < 256 := hb cnt hmem
    exact ⟨by omega, hbd hb⟩

/-- The request that makes handleDescribeTopicPartitionsRequest panic:
one topic whose name is 254 bytes long.  The initial response buffer is
12+40 = 52 bytes; copying the name needs 267, and a single doubling
only reaches 104, so the copy's slice expression is out of bounds. -/
def reqC3 : Request :=
  { Length := 268, ApiKey := 75, ApiVersion := 0, CorrelationID := 1,
    Payload := [0, 0, 0, 2, 255] ++ List.replicate 254 97 ++ [0] }

set_option maxRecDepth 40000 in
/-- C3: the claim fails on the code.  On reqC3 - a well-formed request
whose payload lists exactly 1 topic name (compact-array count byte 2) -
the handler panics with a slice-bounds error while copying the
254-byte topic name (the "expand if needed" logic doubles the buffer
only once: 52 to 104 bytes, but 267 are needed), so no response listing
the topic is produced, and HandleRequest propagates the panic. -/
theorem claim_C3 :
    handleDescribeTopicPartitionsRequest reqC3 = .crash "slice bounds out of range" ∧
    HandleRequest reqC3 = .crash "slice bounds out of range" := by
  constructor <;> decide

/-- Concrete zero-topic request used by the C4 witness. -/
def reqC4 : Request :=
  { Length := 12, ApiKey := 75, ApiVersion := 0, CorrelationID := 7,
    Payload := [0, 0, 0, 1] }

/-- C4: every DescribeTopicPartitions response is a 10-byte header
followed by one `topicEntry` per topic and the terminator: in each
entry the bytes after the all-zero 16-byte topic id are the is-internal
flag 0, the empty-partitions compact length 1, the fixed
authorized-operations bitmask 0x00000df8 (big-endian) and a 0 tag
buffer; after the last entry come the null-cursor byte 255 (0xFF) and
the empty tag buffer byte 0. -/
theorem claim_C4 (req : Request) (out : List Nat)
    (h : handleDescribeTopicPartitionsRequest req = .ok out) :
    ∃ names : List (List Nat),
      out = be32 (u32 req.CorrelationID) ++ [0] ++ be32 0 ++
        [(names.length + 1) % 256] ++ (names.map topicEntry).flatten ++ [255, 0] := by
  obtain ⟨names, hout, _⟩ := dtp_ok_shape h
  exact ⟨names, hout⟩

theorem claim_C4_witness :
    ∃ names : List (List Nat),
      [0, 0, 0, 7, 0, 0, 0, 0, 0, 1, 255, 0] =
        be32 (u32 reqC4.CorrelationID) ++ [0] ++ be32 0 ++
          [(names.length + 1) % 256] ++ (names.map topicEntry).flatten ++ [255, 0] :=
  claim_C4 reqC4 [0, 0, 0, 7, 0, 0, 0, 0, 0, 1, 255, 0] (by decide)



theorem u32_small {k : Nat} (h : k < 4294967296) : u32 (k : Int) = k := by
  unfold u32
  omega

theorem sendRaw_small (data : List Nat) (hlen : data.length < 4294967296) :
    sendRawResponse data = be32 data.length ++ data := by
  unfold sendRawResponse
  rw [u32_small hlen]

theorem take4_be32 (v : Nat) (t : List Nat) : (be32 v ++ t).take 4 = be32 v := rfl

theorem drop4_be32 (v : Nat) (t : List Nat) : (be32 v ++ t).drop 4 = t := rfl

theorem len_be32_append (v : Nat) (t : List Nat) :
    (be32 v ++ t).length = 4 + t.length := by
  simp [be32]
  omega

theorem flatten_bound {names : List (List Nat)}
    (hn : ∀ nm ∈ names, nm.length ≤ 254) :
    ((names.map topicEntry).flatten).length ≤ 280 * names.length := by
  induction names with
  | nil => simp
  | cons a t ih =>
    have h1 : a.length ≤ 254 := hn a (by simp)
    have h2 := ih fun nm hm => hn nm (by simp [hm])
    simp only [List.map_cons, List.flatten_cons, List.length_append, topicEntry_length,
      List.length_cons]
    omega

theorem frame_take_drop (c : Int) (tail : List Nat)
    (h : 4 + tail.length < 4294967296) :
    (sendRawResponse (be32 (u32 c) ++ tail)).take 4 =
      be32 ((sendRawResponse (be32 (u32 c) ++ tail)).length - 4) ∧
    ((sendRawResponse (be32 (u32 c) ++ tail)).drop 4).take 4 = be32 (u32 c) := by
  have hl : (be32 (u32 c) ++ tail).length = 4 + tail.length := len_be32_append _ _
  rw [sendRaw_small _ (by rw [hl]; omega)]
  constructor
  · rw [take4_be32]
    congr 1
  · rw [drop4_be32, take4_be32]

/-- C7: whatever bytes HandleRequest writes - on the ApiVersions,
DescribeTopicPartitions, unsupported-version-error or generic fallback
path - they start with a 4-byte big-endian length prefix equal to the
number of bytes that follow it, and the 4 bytes right after the prefix
are the request's correlation id.  (The payload-byte hypothesis holds
for every payload read from a socket; it bounds the response length
below 2^32 so the int32 length prefix cannot truncate.) -/
theorem claim_C7 (req : Request) (out : List Nat)
    (hb : ∀ x ∈ req.Payload, x < 256)
    (h : HandleRequest req = .ok out) :
    out.take 4 = be32 (out.length - 4) ∧
    (out.drop 4).take 4 = be32 (u32 req.CorrelationID) := by
  simp only [HandleRequest] at h
  split at h
  · obtain rfl := GoResult.ok.inj h
    rw [errdata_bytes]
    exact frame_take_drop _ _ (by simp [be16])
  split at h
  · obtain rfl := GoResult.ok.inj h
    rw [apiv_bytes]
    exact frame_take_drop _ _ (by simp)
  split at h
  · -- DescribeTopicPartitions path
    cases hD : handleDescribeTopicPartitionsRequest req with
    | ok d =>
      rw [hD] at h
      simp only [GoResult.map] at h
      obtain rfl := GoResult.ok.inj h
      obtain ⟨names, rfl, hbd⟩ := dtp_ok_shape hD
      obtain ⟨hn254, hnm⟩ := hbd hb
      have hfl := flatten_bound hnm
      rw [show be32 (u32 req.CorrelationID) ++ [0] ++ be32 0 ++
          [(names.length + 1) % 256] ++ (names.map topicEntry).flatten ++ [255, 0] =
        be32 (u32 req.CorrelationID) ++ ([0] ++ be32 0 ++
          [(names.length + 1) % 256] ++ (names.map topicEntry).flatten ++ [255, 0]) by
          simp [List.append_assoc]]
      exact frame_take_drop _ _ (by
        simp only [List.length_append, List.length_cons, List.length_nil, be32]
        omega)
    | err m =>
      rw [hD] at h
      simp only [GoResult.map] at h
      exact GoResult.noConfusion h
    | crash m =>
      rw [hD] at h
      simp only [GoResult.map] at h
      exact GoResult.noConfusion h
  · obtain rfl := GoResult.ok.inj h
    rw [generic_bytes]
    exact frame_take_drop _ _ (by simp)



def outC7 : List Nat := [0, 0, 0, 12, 0, 0, 0, 7, 0, 0, 0, 0, 0, 1, 255, 0]

theorem claim_C7_witness :
    outC7.take 4 = be32 (outC7.length - 4) ∧
    (outC7.drop 4).take 4 = be32 (u32 reqC4.CorrelationID) :=
  claim_C7 reqC4 outC7 (by decide) (by decide)

theorem dtp_ignores_version (req : Request) (v : Int) :
    handleDescribeTopicPartitionsRequest { req with ApiVersion := v } =
      handleDescribeTopicPartitionsRequest req := rfl

/-- C8: the [0,4] version gate runs before dispatch for every api key,
so a DescribeTopicPartitions request (key 75) with version 1..4 is
dispatched to the DescribeTopicPartitions handler (not rejected with
error 35), is answered exactly as the same request with version 0
(the v0 layout), never produces the 6-byte error-35 response, and all
this even though the advertised max version for key 75
(DescribeTopicMaxVersion) is 0. -/
theorem claim_C8 (req : Request) (hk : req.ApiKey = 75)
    (h1 : 1 ≤ req.ApiVersion) (h4 : req.ApiVersion ≤ 4) :
    HandleRequest req =
      GoResult.map sendRawResponse (handleDescribeTopicPartitionsRequest req) ∧
    HandleRequest req = HandleRequest { req with ApiVersion := 0 } ∧
    (∀ out, HandleRequest req = .ok out →
      out ≠ sendRawResponse
        (sendErrorResponseData req.CorrelationID ErrorUnsupportedVersion)) ∧
    DescribeTopicMaxVersion = 0 := by
  have hdisp : HandleRequest req =
      GoResult.map sendRawResponse (handleDescribeTopicPartitionsRequest req) := by
    simp only [HandleRequest, MinSupportedVersion, MaxSupportedVersion]
    rw [if_neg (by omega), if_neg (by simp [hk, ApiVersionsKey]),
      if_pos (by rw [hk]; rfl)]
  have hdisp0 : HandleRequest { req with ApiVersion := 0 } =
      GoResult.map sendRawResponse
        (handleDescribeTopicPartitionsRequest { req with ApiVersion := 0 }) := by
    simp only [HandleRequest, MinSupportedVersion, MaxSupportedVersion]
    rw [if_neg (by simp), if_neg (by simp [hk, ApiVersionsKey]),
      if_pos (by simp [hk, DescribeTopicPartitionsKey])]
  refine ⟨hdisp, ?_, ?_, rfl⟩
  · rw [hdisp, hdisp0]
    exact congrArg (GoResult.map sendRawResponse) (dtp_ignores_version req 0).symm
  · intro out hout hcontra
    rw [hdisp] at hout
    cases hD : handleDescribeTopicPartitionsRequest req with
    | ok d =>
      rw [hD] at hout
      simp only [GoResult.map] at hout
      obtain rfl := GoResult.ok.inj hout
      obtain ⟨names, rfl, _⟩ := dtp_ok_shape hD
      have hlen := congrArg List.length hcontra
      rw [errdata_bytes] at hlen
      simp [sendRawResponse, be32, be16] at hlen
    | err m =>
      rw [hD] at hout
      simp only [GoResult.map] at hout
      exact GoResult.noConfusion hout
    | crash m =>
      rw [hD] at hout
      simp only [GoResult.map] at hout
      exact GoResult.noConfusion hout

def reqC8 : Request :=
  { Length := 12, ApiKey := 75, ApiVersion := 2, CorrelationID := 7,
    Payload := [0, 0, 0, 1] }

theorem claim_C8_witness :
    HandleRequest reqC8 =
      GoResult.map sendRawResponse (handleDescribeTopicPartitionsRequest reqC8) ∧
    HandleRequest reqC8 = HandleRequest { reqC8 with ApiVersion := 0 } ∧
    (∀ out, HandleRequest reqC8 = .ok out →
      out ≠ sendRawResponse
        (sendErrorResponseData reqC8.CorrelationID ErrorUnsupportedVersion)) ∧
    DescribeTopicMaxVersion = 0 :=
  claim_C8 reqC8 rfl (by decide) (by decide)

set_option maxRecDepth 4000 in
/-- C10: a DescribeTopicPartitions payload whose first topic has a
null compact-string name (length byte 0 at the topic-name position)
makes the handler compute topicNameLength = -1; the request bound check
`offset+topicNameLength > len(Payload)` does not fire, and the slice
`Payload[offset : offset-1]` panics (result `.crash`, never `.err`).
The payload family: empty client id (2 zero bytes), any tag byte `t`,
topics count byte `c ≥ 2` (i.e. at least one topic), a 0 length byte
for the first topic name, and arbitrary trailing bytes. -/
theorem claim_C10 (L v cid : Int) (t c : Nat) (rest : List Nat) (hc : 2 ≤ c) :
    handleDescribeTopicPartitionsRequest
      { Length := L, ApiKey := DescribeTopicPartitionsKey, ApiVersion := v,
        CorrelationID := cid, Payload := [0, 0, t, c, 0] ++ rest } =
      .crash "slice bounds out of range" := by
  simp only [handleDescribeTopicPartitionsRequest, List.cons_append, List.nil_append,
    List.length_cons, List.getD_cons_zero, List.getD_cons_succ]
  norm_num
  rw [if_neg (by omega)]
  rw [if_neg (by omega)]
  rw [if_neg (by omega)]
  rw [if_neg (by omega)]
  rw [show goIndex (0 :: 0 :: t :: c :: 0 :: rest) 3 = some c by
    simp [goIndex, List.get?]]
  norm_num
  rw [if_neg (by omega)]
  rw [show c - 1 = (c - 2) + 1 by omega]
  simp only [dtpLoop]
  rw [if_neg (by simp [List.length_cons]; omega)]
  rw [show goIndex (0 :: 0 :: t :: c :: 0 :: rest) 4 = some 0 by
    simp [goIndex, List.get?]]
  norm_num
  rw [if_neg (by omega)]
  rw [show goSliceL (0 :: 0 :: t :: c :: 0 :: rest) 5 4 = none by
    simp [goSliceL]]


theorem claim_C10_witness :
    handleDescribeTopicPartitionsRequest
      { Length := 0, ApiKey := DescribeTopicPartitionsKey, ApiVersion := 0,
        CorrelationID := 5, Payload := [0, 0, 0, 2, 0] ++ [] } =
      .crash "slice bounds out of range" :=
  claim_C10 0 0 5 0 2 [] (by decide)

end Kaf
